import Mathlib

/-! Verification of the entitlement and usage-accounting slice of the rezzy
backend: `src/backend/user_service.py` over the ORM row types declared in
`src/backend/database.py`.  The relational store is embedded as explicit
lists of rows inside a `DB` value, and every operation is a pure function
from a `DB` (plus the wall-clock inputs the Python code reads once per
operation: the current month string `datetime.utcnow().strftime("%Y-%m")`
and a numeric timestamp for `datetime.utcnow()`) to its result and the
updated `DB`.  Auto-assigned primary keys are modelled by `next_usage_id`
and `next_analysis_id` counters on the `DB`. -/

/-- Row of the `users` table (`database.py`, `class User`); only the columns
this slice reads or writes are carried. -/
structure User where
  id : String
  email : String
  first_name : String
  middle_name : String
  last_name : String
  plan : String
  updated_at : Nat
deriving DecidableEq

/-- Row of the `usage_records` table (`database.py`, `class UsageRecord`). -/
structure UsageRecord where
  id : Nat
  user_id : String
  month : String
  scans_used : Nat
  cover_letters_generated : Nat
  interview_questions_generated : Nat
  updated_at : Nat
deriving DecidableEq

/-- Row of the `resume_analyses` table (`database.py`, `class ResumeAnalysis`).
The three payload columns are `Text` columns holding JSON strings. -/
structure ResumeAnalysis where
  id : Nat
  user_id : String
  resume_file_id : Option Nat
  resume_text : String
  job_description : String
  ai_evaluation : String
  keyword_gaps : String
  job_analysis : String
  created_at : Nat
deriving DecidableEq

/-- The relational store visible to `UserService`. -/
structure DB where
  users : List User
  usage_records : List UsageRecord
  resume_analyses : List ResumeAnalysis
  next_usage_id : Nat
  next_analysis_id : Nat
deriving DecidableEq

/-- One plan's quota row inside `_get_plan_limits`; `-1` is the code's
"unlimited" sentinel. -/
structure PlanLimits where
  scans_per_month : Int
  cover_letters_per_month : Int
  interview_questions_per_month : Int
deriving DecidableEq

/-- `UserService._get_plan_limits`: a static dict from plan name to quotas,
with `limits.get(plan, limits["free"])` as the lookup, so unknown plans fall
back to the free quotas. -/
def get_plan_limits (plan : String) : PlanLimits :=
  if plan = "free" then ⟨5, 0, 0⟩
  else if plan = "starter" then ⟨-1, 0, 0⟩
  else if plan = "premium" then ⟨-1, -1, -1⟩
  else ⟨5, 0, 0⟩

/-- `UserService.get_user`: `query(User).filter(User.id == user_id).first()`. -/
def get_user (db : DB) (user_id : String) : Option User :=
  db.users.find? (fun u => u.id == user_id)

/-- The current-month usage lookup
`query(UsageRecord).filter(UsageRecord.user_id == user_id, UsageRecord.month == month).first()`
that `get_user_plan`, `increment_usage` and `check_usage_limit` all perform. -/
def find_usage_record (db : DB) (user_id month : String) : Option UsageRecord :=
  db.usage_records.find? (fun r => r.user_id == user_id && r.month == month)

/-- `UserService.check_usage_limit`: unknown user denies; only the
`"scan"` action is metered (the code ends with
`return True  # Other usage types don't have limits for now`); a missing
current-month row allows; the `-1` sentinel allows; otherwise allow iff
`scans_used < scan_limit`. -/
def check_usage_limit (db : DB) (current_month user_id usage_type : String) : Bool :=
  match get_user db user_id with
  | none => false
  | some user =>
    let plan_limits := get_plan_limits user.plan
    if usage_type = "scan" then
      match find_usage_record db user_id current_month with
      | none => true
      | some usage_record =>
        let scan_limit := plan_limits.scans_per_month
        if scan_limit = -1 then true
        else decide ((usage_record.scans_used : Int) < scan_limit)
    else true

/-- Mutating the single ORM object returned by `.first()` and committing:
the first row satisfying `p` is replaced by its image under `f`. -/
def updateFirst {α : Type} (p : α → Bool) (f : α → α) : List α → List α
  | [] => []
  | x :: xs => if p x then f x :: xs else x :: updateFirst p f xs

/-- The counter bump inside `UserService.increment_usage`: the `if`/`elif`
chain on `usage_type` (an unrecognized type increments nothing), followed by
`usage_record.updated_at = datetime.utcnow()`. -/
def bump_usage (usage_type : String) (now : Nat) (r : UsageRecord) : UsageRecord :=
  let r :=
    if usage_type = "scan" then { r with scans_used := r.scans_used + 1 }
    else if usage_type = "cover_letter" then
      { r with cover_letters_generated := r.cover_letters_generated + 1 }
    else if usage_type = "interview_questions" then
      { r with interview_questions_generated := r.interview_questions_generated + 1 }
    else r
  { r with updated_at := now }

/-- `UserService.increment_usage`: fetch-or-create the current-month row,
bump the matching counter, stamp `updated_at`, commit, return `True` (the
`except` path models store failure, which this embedding does not raise). -/
def increment_usage (db : DB) (now : Nat) (current_month user_id usage_type : String) :
    Bool × DB :=
  match find_usage_record db user_id current_month with
  | some _ =>
    (true, { db with
      usage_records :=
        updateFirst (fun r => r.user_id == user_id && r.month == current_month)
          (bump_usage usage_type now) db.usage_records })
  | none =>
    let r0 : UsageRecord :=
      { id := db.next_usage_id, user_id := user_id, month := current_month,
        scans_used := 0, cover_letters_generated := 0,
        interview_questions_generated := 0, updated_at := now }
    (true, { db with
      usage_records := db.usage_records ++ [bump_usage usage_type now r0],
      next_usage_id := db.next_usage_id + 1 })

/-- The get-or-create step of `UserService.get_user_plan` (lines 121-138): if no
`UsageRecord` exists for `(user_id, current_month)`, an all-zero one is added
and committed; otherwise the existing row is returned unchanged. -/
def get_or_create_usage (db : DB) (now : Nat) (current_month user_id : String) :
    UsageRecord × DB :=
  match find_usage_record db user_id current_month with
  | some usage_record => (usage_record, db)
  | none =>
    let usage_record : UsageRecord :=
      { id := db.next_usage_id, user_id := user_id, month := current_month,
        scans_used := 0, cover_letters_generated := 0,
        interview_questions_generated := 0, updated_at := now }
    (usage_record,
      { db with usage_records := db.usage_records ++ [usage_record],
                next_usage_id := db.next_usage_id + 1 })

/-- Shape of the dict `UserService.get_user_plan` returns. -/
structure PlanResponse where
  plan : String
  scans_used : Nat
  month : String
  limits : PlanLimits
deriving DecidableEq

/-- `UserService._get_default_plan_response`. -/
def get_default_plan_response (current_month : String) : PlanResponse :=
  { plan := "free", scans_used := 0, month := current_month,
    limits := get_plan_limits "free" }

/-- `UserService.get_user_plan`: unknown user gets the default response;
otherwise the current-month row is fetched or created and reported together
with the plan's limits. -/
def get_user_plan (db : DB) (now : Nat) (current_month user_id : String) :
    PlanResponse × DB :=
  match get_user db user_id with
  | none => (get_default_plan_response current_month, db)
  | some user =>
    let (usage_record, db') := get_or_create_usage db now current_month user_id
    ({ plan := user.plan, scans_used := usage_record.scans_used,
       month := current_month, limits := get_plan_limits user.plan }, db')

/-- The profile-field update applied in every `create_user` branch that finds
an existing row: set first/middle/last name and `updated_at`. -/
def update_profile (first_name middle_name last_name : String) (now : Nat)
    (u : User) : User :=
  { u with first_name := first_name, middle_name := middle_name,
           last_name := last_name, updated_at := now }

/-- `UserService.create_user`: (1) a row with this `user_id` gets its profile
fields updated in place; (2) else a row with this `email` under a different
id has its usage records **deleted**, its primary key rewritten to `user_id`,
its profile updated, and a fresh zeroed current-month usage row added; with
the same id it is just profile-updated; (3) else a new free-plan user plus a
zeroed current-month usage row are inserted. -/
def create_user (db : DB) (now : Nat) (current_month : String)
    (user_id email first_name middle_name last_name : String) : User × DB :=
  match db.users.find? (fun u => u.id == user_id) with
  | some existing_user =>
    (update_profile first_name middle_name last_name now existing_user,
     { db with users := updateFirst (fun u => u.id == user_id)
                 (update_profile first_name middle_name last_name now) db.users })
  | none =>
    match db.users.find? (fun u => u.email == email) with
    | some existing_email_user =>
      if existing_email_user.id ≠ user_id then
        let rekey : User → User := fun u =>
          { u with id := user_id, first_name := first_name,
                   middle_name := middle_name, last_name := last_name,
                   updated_at := now }
        let fresh : UsageRecord :=
          { id := db.next_usage_id, user_id := user_id, month := current_month,
            scans_used := 0, cover_letters_generated := 0,
            interview_questions_generated := 0, updated_at := now }
        (rekey existing_email_user,
         { db with
             users := updateFirst (fun u => u.email == email) rekey db.users,
             usage_records :=
               db.usage_records.filter (fun r => r.user_id != existing_email_user.id)
                 ++ [fresh],
             next_usage_id := db.next_usage_id + 1 })
      else
        (update_profile first_name middle_name last_name now existing_email_user,
         { db with users := updateFirst (fun u => u.email == email)
                     (update_profile first_name middle_name last_name now) db.users })
    | none =>
      let user : User :=
        { id := user_id, email := email, first_name := first_name,
          middle_name := middle_name, last_name := last_name,
          plan := "free", updated_at := now }
      let usage_record : UsageRecord :=
        { id := db.next_usage_id, user_id := user_id, month := current_month,
          scans_used := 0, cover_letters_generated := 0,
          interview_questions_generated := 0, updated_at := now }
      (user,
       { db with users := db.users ++ [user],
                 usage_records := db.usage_records ++ [usage_record],
                 next_usage_id := db.next_usage_id + 1 })

/-- The scan counter the entitlement gate effectively reads: the current-month
row's `scans_used`, or `0` when no row exists yet. -/
def current_scan_count (db : DB) (user_id current_month : String) : Nat :=
  match find_usage_record db user_id current_month with
  | none => 0
  | some r => r.scans_used

/-! JSON payloads.  `save_resume_analysis` stores the three payload dicts with
`json.dumps` and the two getters recover them with `json.loads`, so the slice
needs an executable model of Python's JSON codec.  `Jsonv` is the value
grammar (numbers restricted to the ints this backend's payloads use — floats
are outside the model); `dumps` renders with Python's default separators
`", "` and `": "` and its string escaping for ASCII input; `loads` is a total
recursive-descent parser returning `none` where `json.loads` raises. -/

mutual
inductive Jsonv where
  | null : Jsonv
  | bool (b : Bool) : Jsonv
  | num (n : Int) : Jsonv
  | str (s : String) : Jsonv
  | arr (elements : JArr) : Jsonv
  | obj (members : JObj) : Jsonv
inductive JArr where
  | nil : JArr
  | cons (hd : Jsonv) (tl : JArr) : JArr
inductive JObj where
  | nil : JObj
  | cons (key : String) (val : Jsonv) (tl : JObj) : JObj
end

/-- The opening brace character, kept out of string literals. -/
def obraceChar : Char := Char.ofNat 123

/-- The closing brace character, kept out of string literals. -/
def cbraceChar : Char := Char.ofNat 125

/-- Decimal digit character for `k < 10`. -/
def digitChar (k : Nat) : Char := Char.ofNat (48 + k)

/-- Lowercase hex digit character for `k < 16`, as Python's `\uXXXX` emits. -/
def hexDigitChar (k : Nat) : Char :=
  if k < 10 then Char.ofNat (48 + k) else Char.ofNat (87 + k)

/-- Decimal digits of `n`, most significant first, by fuel-bounded structural
recursion so that concrete evaluation reduces in the kernel. -/
def natDigitsF : Nat → Nat → List Char
  | 0, _ => []
  | fuel + 1, n =>
    if n < 10 then [digitChar n]
    else natDigitsF fuel (n / 10) ++ [digitChar (n % 10)]

/-- Decimal digits of `n` (enough fuel for every `n`). -/
def natDigits (n : Nat) : List Char := natDigitsF (n + 1) n

/-- Python's `repr` of an int, as `json.dumps` emits it. -/
def intDigits (n : Int) : List Char :=
  if n < 0 then '-' :: natDigits n.natAbs else natDigits n.natAbs

/-- Python `json.dumps` escaping of one ASCII string character: quote and
backslash, the named control escapes, `\u00XX` for other control characters,
and everything else literal. -/
def escapeChar (c : Char) : List Char :=
  if c = '"' then ['\\', '"']
  else if c = '\\' then ['\\', '\\']
  else if c = '\n' then ['\\', 'n']
  else if c = '\t' then ['\\', 't']
  else if c = '\r' then ['\\', 'r']
  else if c = Char.ofNat 8 then ['\\', 'b']
  else if c = Char.ofNat 12 then ['\\', 'f']
  else if c.toNat < 32 then
    ['\\', 'u', '0', '0', hexDigitChar (c.toNat / 16), hexDigitChar (c.toNat % 16)]
  else [c]

/-- Escape a whole string body. -/
def escapeChars : List Char → List Char
  | [] => []
  | c :: cs => escapeChar c ++ escapeChars cs

/-- A rendered string literal, quotes included. -/
def dumpStr (s : String) : List Char := '"' :: escapeChars s.data ++ ['"']

mutual
/-- Characters of `json.dumps` for one value (default separators). -/
def dumpVal : Jsonv → List Char
  | .null => "null".data
  | .bool true => "true".data
  | .bool false => "false".data
  | .num n => intDigits n
  | .str s => dumpStr s
  | .arr .nil => ['[', ']']
  | .arr (.cons v tl) => '[' :: (dumpVal v ++ dumpElemsRest tl) ++ [']']
  | .obj .nil => [obraceChar, cbraceChar]
  | .obj (.cons k v tl) =>
    obraceChar :: ((dumpStr k ++ ':' :: ' ' :: dumpVal v) ++ dumpMembersRest tl)
      ++ [cbraceChar]
termination_by structural j => j
/-- Remaining array elements, each preceded by `", "`. -/
def dumpElemsRest : JArr → List Char
  | .nil => []
  | .cons v tl => ',' :: ' ' :: (dumpVal v ++ dumpElemsRest tl)
termination_by structural xs => xs
/-- Remaining object members, each preceded by `", "`. -/
def dumpMembersRest : JObj → List Char
  | .nil => []
  | .cons k v tl => ',' :: ' ' :: ((dumpStr k ++ ':' :: ' ' :: dumpVal v) ++ dumpMembersRest tl)
termination_by structural ms => ms
end

/-- One rendered object member, `"key": value` with Python's `": "`. -/
def dumpMember (k : String) (v : Jsonv) : List Char :=
  dumpStr k ++ ':' :: ' ' :: dumpVal v

/-- `json.dumps` of a value, as the string stored in the `Text` column. -/
def dumps (j : Jsonv) : String := String.mk (dumpVal j)

/-- JSON insignificant whitespace. -/
def isWsChar (c : Char) : Bool := c == ' ' || c == '\n' || c == '\t' || c == '\r'

/-- Drop leading insignificant whitespace. -/
def skipWs : List Char → List Char
  | [] => []
  | c :: cs => if isWsChar c then skipWs cs else c :: cs

/-- Decimal digit test on the character code. -/
def isDigitChar (c : Char) : Bool := 48 ≤ c.toNat && c.toNat ≤ 57

/-- Split off the longest leading run of decimal digits. -/
def takeDigits : List Char → List Char × List Char
  | [] => ([], [])
  | c :: cs =>
    if isDigitChar c then
      let (ds, r) := takeDigits cs
      (c :: ds, r)
    else ([], c :: cs)

/-- Numeric value of a digit run. -/
def natOfDigits (ds : List Char) : Nat :=
  ds.foldl (fun acc c => acc * 10 + (c.toNat - 48)) 0

/-- Parse an optionally negated integer literal (the `Jsonv` number grammar). -/
def parseNum : List Char → Option (Int × List Char)
  | [] => none
  | c :: cs =>
    if c = '-' then
      let (ds, r) := takeDigits cs
      if ds.isEmpty then none else some (-(natOfDigits ds : Int), r)
    else
      let (ds, r) := takeDigits (c :: cs)
      if ds.isEmpty then none else some ((natOfDigits ds : Int), r)

/-- Value of one hex digit character, if it is one. -/
def hexVal (c : Char) : Option Nat :=
  if 48 ≤ c.toNat && c.toNat ≤ 57 then some (c.toNat - 48)
  else if 97 ≤ c.toNat && c.toNat ≤ 102 then some (c.toNat - 87)
  else if 65 ≤ c.toNat && c.toNat ≤ 70 then some (c.toNat - 55)
  else none

/-- The single-character string escapes `json.loads` accepts. -/
def unescapeChar (e : Char) : Option Char :=
  if e = '"' then some '"'
  else if e = '\\' then some '\\'
  else if e = '/' then some '/'
  else if e = 'n' then some '\n'
  else if e = 't' then some '\t'
  else if e = 'r' then some '\r'
  else if e = 'b' then some (Char.ofNat 8)
  else if e = 'f' then some (Char.ofNat 12)
  else none

/-- Parse a string body after its opening quote, returning the decoded
characters and the input after the closing quote. -/
def parseStr : List Char → Option (List Char × List Char)
  | [] => none
  | c :: cs =>
    if c = '"' then some ([], cs)
    else if c = '\\' then
      match cs with
      | [] => none
      | e :: cs2 =>
        if e = 'u' then
          match cs2 with
          | h1 :: h2 :: h3 :: h4 :: cs3 =>
            match hexVal h1, hexVal h2, hexVal h3, hexVal h4 with
            | some a, some b, some v3, some d =>
              match parseStr cs3 with
              | some (s, r) => some (Char.ofNat (((a * 16 + b) * 16 + v3) * 16 + d) :: s, r)
              | none => none
            | _, _, _, _ => none
          | _ => none
        else
          match unescapeChar e with
          | some ch =>
            match parseStr cs2 with
            | some (s, r) => some (ch :: s, r)
            | none => none
          | none => none
    else
      match parseStr cs with
      | some (s, r) => some (c :: s, r)
      | none => none

mutual
/-- Fuel-bounded recursive-descent parse of one JSON value. -/
def parseVal : Nat → List Char → Option (Jsonv × List Char)
  | 0, _ => none
  | fuel + 1, cs =>
    match skipWs cs with
    | [] => none
    | c :: r =>
      if c = 'n' then
        match r with
        | 'u' :: 'l' :: 'l' :: r2 => some (.null, r2)
        | _ => none
      else if c = 't' then
        match r with
        | 'r' :: 'u' :: 'e' :: r2 => some (.bool true, r2)
        | _ => none
      else if c = 'f' then
        match r with
        | 'a' :: 'l' :: 's' :: 'e' :: r2 => some (.bool false, r2)
        | _ => none
      else if c = '"' then
        match parseStr r with
        | some (s, r2) => some (.str (String.mk s), r2)
        | none => none
      else if c = '[' then
        match skipWs r with
        | [] => none
        | c2 :: r2 =>
          if c2 = ']' then some (.arr .nil, r2)
          else
            match parseElems fuel (c2 :: r2) with
            | some (xs, r3) => some (.arr xs, r3)
            | none => none
      else if c = obraceChar then
        match skipWs r with
        | [] => none
        | c2 :: r2 =>
          if c2 = cbraceChar then some (.obj .nil, r2)
          else
            match parseMembers fuel (c2 :: r2) with
            | some (ms, r3) => some (.obj ms, r3)
            | none => none
      else if isDigitChar c || c = '-' then
        match parseNum (c :: r) with
        | some (n, r2) => some (.num n, r2)
        | none => none
      else none
termination_by structural fuel => fuel
/-- Parse one or more comma-separated array elements up to the closing `]`. -/
def parseElems : Nat → List Char → Option (JArr × List Char)
  | 0, _ => none
  | fuel + 1, cs =>
    match parseVal fuel cs with
    | none => none
    | some (v, r) =>
      match skipWs r with
      | [] => none
      | c :: r2 =>
        if c = ',' then
          match parseElems fuel r2 with
          | some (tl, r3) => some (.cons v tl, r3)
          | none => none
        else if c = ']' then some (.cons v .nil, r2)
        else none
termination_by structural fuel => fuel
/-- Parse one or more `"key": value` members up to the closing brace. -/
def parseMembers : Nat → List Char → Option (JObj × List Char)
  | 0, _ => none
  | fuel + 1, cs =>
    match skipWs cs with
    | [] => none
    | c :: r =>
      if c = '"' then
        match parseStr r with
        | none => none
        | some (k, r1) =>
          match skipWs r1 with
          | [] => none
          | c2 :: r2 =>
            if c2 = ':' then
              match parseVal fuel r2 with
              | none => none
              | some (v, r3) =>
                match skipWs r3 with
                | [] => none
                | c3 :: r4 =>
                  if c3 = ',' then
                    match parseMembers fuel r4 with
                    | some (tl, r5) => some (.cons (String.mk k) v tl, r5)
                    | none => none
                  else if c3 = cbraceChar then some (.cons (String.mk k) v .nil, r4)
                  else none
            else none
      else none
termination_by structural fuel => fuel
end

/-- `json.loads`: parse a complete document, requiring full consumption up to
trailing whitespace; `none` models the `JSONDecodeError` raise. -/
def loads (s : String) : Option Jsonv :=
  match parseVal (s.data.length + 1) s.data with
  | some (j, r) => if skipWs r = [] then some j else none
  | none => none

/-- A `ResumeAnalysis` row as the getters hand it back: the three payload
columns replaced by their deserialized values (the Python code overwrites the
attributes on the ORM object in place). -/
structure DecodedAnalysis where
  id : Nat
  user_id : String
  resume_file_id : Option Nat
  resume_text : String
  job_description : String
  ai_evaluation : Jsonv
  keyword_gaps : Jsonv
  job_analysis : Jsonv
  created_at : Nat

/-- The empty dict the getters substitute on a deserialization failure. -/
def emptyObj : Jsonv := .obj .nil

/-- One payload column's read: `json.loads(x) if x else {}` — the guard turns
an empty column into `{}` without parsing; `none` is a raised
`JSONDecodeError`. -/
def decode_payload (s : String) : Option Jsonv :=
  if s = "" then some emptyObj else loads s

/-- The payload-decoding block shared by `get_resume_analyses` and
`get_resume_analysis`: the three columns are decoded inside one `try`, and
the `except JSONDecodeError` arm resets all three fields to `{}`. -/
def decode_analysis (a : ResumeAnalysis) : DecodedAnalysis :=
  match decode_payload a.ai_evaluation, decode_payload a.keyword_gaps,
      decode_payload a.job_analysis with
  | some e, some k, some j =>
    { id := a.id, user_id := a.user_id, resume_file_id := a.resume_file_id,
      resume_text := a.resume_text, job_description := a.job_description,
      ai_evaluation := e, keyword_gaps := k, job_analysis := j,
      created_at := a.created_at }
  | _, _, _ =>
    { id := a.id, user_id := a.user_id, resume_file_id := a.resume_file_id,
      resume_text := a.resume_text, job_description := a.job_description,
      ai_evaluation := emptyObj, keyword_gaps := emptyObj,
      job_analysis := emptyObj, created_at := a.created_at }

/-- `UserService.save_resume_analysis`: serialize the three dicts with
`json.dumps`, insert, commit, and return the new row. -/
def save_resume_analysis (db : DB) (now : Nat) (user_id resume_text job_description : String)
    (ai_evaluation keyword_gaps job_analysis : JObj) (resume_file_id : Option Nat) :
    ResumeAnalysis × DB :=
  let analysis : ResumeAnalysis :=
    { id := db.next_analysis_id, user_id := user_id,
      resume_file_id := resume_file_id, resume_text := resume_text,
      job_description := job_description,
      ai_evaluation := dumps (.obj ai_evaluation),
      keyword_gaps := dumps (.obj keyword_gaps),
      job_analysis := dumps (.obj job_analysis),
      created_at := now }
  (analysis,
   { db with resume_analyses := db.resume_analyses ++ [analysis],
             next_analysis_id := db.next_analysis_id + 1 })

/-- Insert into a list already ordered by `created_at` descending. -/
def insertByCreatedDesc (a : ResumeAnalysis) : List ResumeAnalysis → List ResumeAnalysis
  | [] => [a]
  | b :: bs =>
    if b.created_at ≤ a.created_at then a :: b :: bs
    else b :: insertByCreatedDesc a bs

/-- The `order_by(ResumeAnalysis.created_at.desc())` of the list endpoint. -/
def sortByCreatedDesc : List ResumeAnalysis → List ResumeAnalysis
  | [] => []
  | a :: rest => insertByCreatedDesc a (sortByCreatedDesc rest)

/-- `UserService.get_resume_analyses`: the user's rows newest first, at most
`limit`, each with its payload columns decoded (per-row `try`, so one bad row
never fails the list). -/
def get_resume_analyses (db : DB) (user_id : String) (limit : Nat) :
    List DecodedAnalysis :=
  (((sortByCreatedDesc (db.resume_analyses.filter (fun a => a.user_id == user_id))).take
      limit).map decode_analysis)

/-- `UserService.get_resume_analysis`: fetch by id **and** owner in one
filter, decoding payloads when found; an unowned or absent id is `none`. -/
def get_resume_analysis (db : DB) (analysis_id : Nat) (user_id : String) :
    Option DecodedAnalysis :=
  (db.resume_analyses.find? (fun a => a.id == analysis_id && a.user_id == user_id)).map
    decode_analysis

mutual
/-- Parser fuel sufficient for one value. -/
def jfuel : Jsonv → Nat
  | .null => 1
  | .bool _ => 1
  | .num _ => 1
  | .str _ => 1
  | .arr xs => 1 + afuel xs
  | .obj ms => 1 + ofuel ms
termination_by structural j => j
/-- Parser fuel sufficient for an element list. -/
def afuel : JArr → Nat
  | .nil => 0
  | .cons v tl => 1 + jfuel v + afuel tl
termination_by structural xs => xs
/-- Parser fuel sufficient for a member list. -/
def ofuel : JObj → Nat
  | .nil => 0
  | .cons _ v tl => 1 + jfuel v + ofuel tl
termination_by structural ms => ms
end

/-- A remainder that cannot extend a parsed number: empty or headed by a
non-digit.  Every continuation `dumps` emits after a number qualifies. -/
def numTailOk : List Char → Bool
  | [] => true
  | c :: _ => !(isDigitChar c)

deriving instance DecidableEq for Jsonv

/-- An empty store, for concrete witnesses. -/
def exDbEmpty : DB := ⟨[], [], [], 1, 1⟩

/-- A free-plan user row, for concrete witnesses. -/
def exFreeUser : User := ⟨"u1", "u1@example.com", "", "", "", "free", 0⟩

/-- Store with a free-plan user and an all-zero current-month usage row. -/
def exDbFree : DB := ⟨[exFreeUser], [⟨1, "u1", "2024-01", 0, 0, 0, 0⟩], [], 2, 1⟩

/-- Store with the free-plan user after four recorded scans. -/
def exDbFree4 : DB := ⟨[exFreeUser], [⟨1, "u1", "2024-01", 4, 0, 0, 0⟩], [], 2, 1⟩

/-- A premium-plan user row, for concrete witnesses. -/
def exPremiumUser : User := ⟨"p1", "p1@example.com", "", "", "", "premium", 0⟩

/-- Store with a premium user whose current-month row shows 10000 scans. -/
def exDbPremium : DB := ⟨[exPremiumUser], [⟨1, "p1", "2024-01", 10000, 0, 0, 0⟩], [], 2, 1⟩

/-- Store for the identity-merge scenario: one user keyed `"old1"` whose
current-month ledger row already counts 3 scans. -/
def exDbMerge : DB :=
  ⟨[⟨"old1", "a@example.com", "", "", "", "free", 0⟩],
   [⟨7, "old1", "2024-01", 3, 0, 0, 0⟩], [], 8, 1⟩

/-- Store holding one resume analysis owned by `"alice"`. -/
def exDbAnalysis : DB :=
  ⟨[], [], [⟨4, "alice", none, "résumé", "job", "", "", "", 0⟩], 1, 5⟩

/-- Store with a usage row carrying distinct counter values, to witness the
frame behaviour of `increment_usage` on unknown usage types. -/
def exDbCounters : DB := ⟨[exFreeUser], [⟨1, "u1", "2024-01", 2, 3, 4, 0⟩], [], 2, 1⟩

/-! Theorems.  Each claim of the specification is settled by exactly one
theorem below; shared list and codec lemmas come first. -/

/-- The first matching row after `updateFirst` is the rewritten one, provided
the rewrite preserves the match. -/
theorem find?_updateFirst {α : Type} (p : α → Bool) (f : α → α) (l : List α) (x : α)
    (hx : l.find? p = some x) (hpf : p (f x) = true) :
    (updateFirst p f l).find? p = some (f x) := by
  induction l with
  | nil => simp at hx
  | cons y ys ih =>
    by_cases hy : p y = true
    · rw [List.find?_cons_of_pos _ hy] at hx
      cases hx
      simp [updateFirst, hy, List.find?_cons_of_pos _ hpf]
    · rw [List.find?_cons_of_neg _ (by simpa using hy)] at hx
      simp [updateFirst, hy, List.find?_cons_of_neg, ih hx]

/-- `updateFirst` never changes the number of rows. -/
theorem updateFirst_length {α : Type} (p : α → Bool) (f : α → α) (l : List α) :
    (updateFirst p f l).length = l.length := by
  induction l with
  | nil => rfl
  | cons y ys ih => by_cases hy : p y = true <;> simp [updateFirst, hy, ih]

/-- C7: for every user identity with no `User` row, `check_usage_limit`
returns `False`: the entitlement check fails closed on unknown identities. -/
theorem check_usage_limit_unknown_user_denies (db : DB)
    (current_month user_id usage_type : String) (h : get_user db user_id = none) :
    check_usage_limit db current_month user_id usage_type = false := by
  simp [check_usage_limit, h]

/-- Witness for C7 at the empty store. -/
theorem check_usage_limit_unknown_user_denies_witness :
    get_user exDbEmpty "ghost" = none
    ∧ check_usage_limit exDbEmpty "2024-01" "ghost" "scan" = false :=
  ⟨by decide, check_usage_limit_unknown_user_denies exDbEmpty "2024-01" "ghost" "scan" (by decide)⟩

/-- C8: `_get_plan_limits` is total, and every plan identifier outside
free/starter/premium yields exactly the free plan's quotas. -/
theorem get_plan_limits_unknown_falls_back_to_free (plan : String)
    (h1 : plan ≠ "free") (h2 : plan ≠ "starter") (h3 : plan ≠ "premium") :
    get_plan_limits plan = get_plan_limits "free" := by
  simp [get_plan_limits, h1, h2, h3]

/-- Witness for C8 at the unknown plan identifier `"elite"`. -/
theorem get_plan_limits_unknown_falls_back_to_free_witness :
    get_plan_limits "elite" = get_plan_limits "free" :=
  get_plan_limits_unknown_falls_back_to_free "elite" (by decide) (by decide) (by decide)

/-- The scan quota of every plan is either 5 or the unlimited sentinel. -/
theorem scans_per_month_cases (plan : String) :
    (get_plan_limits plan).scans_per_month = 5
    ∨ (get_plan_limits plan).scans_per_month = -1 := by
  unfold get_plan_limits
  split_ifs <;> simp

/-- C1: for a free-plan user the scan gate allows exactly while the
current-month scan counter is below 5, and the decision is unchanged under
any store that agrees on the free plan and that month's row — it never reads
another month's counters. -/
theorem free_plan_scan_gate (db db2 : DB) (current_month user_id : String) (u u2 : User)
    (hu : get_user db user_id = some u) (hplan : u.plan = "free")
    (hu2 : get_user db2 user_id = some u2) (hplan2 : u2.plan = "free")
    (hrec : find_usage_record db2 user_id current_month
      = find_usage_record db user_id current_month) :
    (check_usage_limit db current_month user_id "scan" = true ↔
      current_scan_count db user_id current_month < 5)
    ∧ check_usage_limit db2 current_month user_id "scan"
        = check_usage_limit db current_month user_id "scan" := by
  constructor
  · simp only [check_usage_limit, hu, hplan, current_scan_count]
    cases h : find_usage_record db user_id current_month with
    | none => simp [get_plan_limits]
    | some r => simp [h, get_plan_limits]
  · simp only [check_usage_limit, hu, hu2, hplan, hplan2, hrec]

/-- Witness for C1: the free user at 4 recorded scans is allowed, and the
store passed twice agrees with itself on the month's row. -/
theorem free_plan_scan_gate_witness :
    (check_usage_limit exDbFree4 "2024-01" "u1" "scan" = true ↔
      current_scan_count exDbFree4 "u1" "2024-01" < 5)
    ∧ check_usage_limit exDbFree4 "2024-01" "u1" "scan"
        = check_usage_limit exDbFree4 "2024-01" "u1" "scan" :=
  free_plan_scan_gate exDbFree4 exDbFree4 "2024-01" "u1" exFreeUser exFreeUser
    (by decide) (by decide) (by decide) (by decide) rfl

/-- C2 counterexample: the free plan's cover-letter quota is 0 and the
current-month cover-letter counter is 0, yet the gate allows the action —
so "allow iff counter < quota" fails for non-scan action kinds. -/
theorem check_usage_limit_cover_letter_ignores_quota :
    check_usage_limit exDbFree "2024-01" "u1" "cover_letter" = true
    ∧ (get_plan_limits "free").cover_letters_per_month = 0
    ∧ (find_usage_record exDbFree "u1" "2024-01").map
        (fun r => r.cover_letters_generated) = some 0 := by decide

/-- C2 as amended: the gate meters only the scan action — for a known user
with a finite scan quota it allows exactly while the current-month scan
counter is below that quota, while cover-letter and interview-question
requests are always allowed, whatever their quotas and counters. -/
theorem check_usage_limit_amended (db : DB) (current_month user_id : String) (u : User)
    (hu : get_user db user_id = some u) :
    check_usage_limit db current_month user_id "cover_letter" = true
    ∧ check_usage_limit db current_month user_id "interview_questions" = true
    ∧ ((get_plan_limits u.plan).scans_per_month ≠ -1 →
        (check_usage_limit db current_month user_id "scan" = true ↔
          (current_scan_count db user_id current_month : Int)
            < (get_plan_limits u.plan).scans_per_month)) := by
  refine ⟨by simp [check_usage_limit, hu], by simp [check_usage_limit, hu], ?_⟩
  intro hq
  rcases scans_per_month_cases u.plan with h5 | h5
  · simp only [check_usage_limit, hu, current_scan_count, if_pos rfl]
    cases h : find_usage_record db user_id current_month with
    | none => simp [h5]
    | some r => simp [h5, h]
  · exact absurd h5 hq

/-- Witness for C2's amended theorem at the all-zero free-plan store: both
unmetered actions are allowed and the scan gate matches its counter bound. -/
theorem check_usage_limit_amended_witness :
    check_usage_limit exDbFree "2024-01" "u1" "cover_letter" = true
    ∧ check_usage_limit exDbFree "2024-01" "u1" "interview_questions" = true
    ∧ ((get_plan_limits exFreeUser.plan).scans_per_month ≠ -1 →
        (check_usage_limit exDbFree "2024-01" "u1" "scan" = true ↔
          (current_scan_count exDbFree "u1" "2024-01" : Int)
            < (get_plan_limits exFreeUser.plan).scans_per_month)) :=
  check_usage_limit_amended exDbFree "2024-01" "u1" exFreeUser (by decide)

/-- C3: whenever the plan's quota for the checked action kind is the `-1`
"unlimited" sentinel, the gate allows the action for a known user no matter
what the current-month counters hold. -/
theorem check_usage_limit_unlimited_sentinel (db : DB) (current_month user_id : String)
    (u : User) (hu : get_user db user_id = some u) :
    ((get_plan_limits u.plan).scans_per_month = -1 →
      check_usage_limit db current_month user_id "scan" = true)
    ∧ ((get_plan_limits u.plan).cover_letters_per_month = -1 →
      check_usage_limit db current_month user_id "cover_letter" = true)
    ∧ ((get_plan_limits u.plan).interview_questions_per_month = -1 →
      check_usage_limit db current_month user_id "interview_questions" = true) := by
  refine ⟨?_, ?_, ?_⟩
  · intro h
    simp only [check_usage_limit, hu, if_pos rfl]
    cases hrec : find_usage_record db user_id current_month <;> simp [h]
  · intro _; simp [check_usage_limit, hu]
  · intro _; simp [check_usage_limit, hu]

/-- Witness for C3: the premium plan's sentinel scan quota admits a user whose
current-month row already counts 10000 scans. -/
theorem check_usage_limit_unlimited_sentinel_witness :
    (get_plan_limits exPremiumUser.plan).scans_per_month = -1
    ∧ find_usage_record exDbPremium "p1" "2024-01"
        = some ⟨1, "p1", "2024-01", 10000, 0, 0, 0⟩
    ∧ check_usage_limit exDbPremium "2024-01" "p1" "scan" = true :=
  ⟨by decide, by decide,
    (check_usage_limit_unlimited_sentinel exDbPremium "2024-01" "p1" exPremiumUser
      (by decide)).1 (by decide)⟩

/-- A list on which `find?` fails filters to nothing. -/
theorem filter_eq_nil_of_find?_eq_none {α : Type} (p : α → Bool) (l : List α)
    (h : l.find? p = none) : l.filter p = [] := by
  induction l with
  | nil => rfl
  | cons x xs ih =>
    by_cases hx : p x = true
    · rw [List.find?_cons_of_pos _ hx] at h; cases h
    · rw [List.find?_cons_of_neg _ (by simpa using hx)] at h
      simp [List.filter_cons, hx, ih h]

/-- A successful `find?` guarantees at least one row passes the filter. -/
theorem one_le_filter_length_of_find?_eq_some {α : Type} (p : α → Bool) (l : List α)
    (x : α) (h : l.find? p = some x) : 1 ≤ (l.filter p).length := by
  induction l with
  | nil => cases h
  | cons y ys ih =>
    by_cases hy : p y = true
    · simp [List.filter_cons, hy]
    · rw [List.find?_cons_of_neg _ (by simpa using hy)] at h
      simpa [List.filter_cons, hy] using ih h

/-- `any` agrees with the success of `find?`. -/
theorem any_eq_find?_isSome {α : Type} (p : α → Bool) (l : List α) :
    l.any p = (l.find? p).isSome := by
  induction l with
  | nil => rfl
  | cons x xs ih => by_cases hx : p x = true <;> simp [List.find?_cons, hx, ih]

/-- C9: the get-or-create step of `get_user_plan` is idempotent — run twice in
the same month it returns the same row (hence the same identifier) without
touching the store again, and exactly one row for that (user, month) pair
remains, given the composite-key invariant that at most one existed before. -/
theorem get_or_create_usage_idempotent (db : DB) (now now2 : Nat)
    (current_month user_id : String)
    (hinv : (db.usage_records.filter
      (fun r => r.user_id == user_id && r.month == current_month)).length ≤ 1) :
    (get_or_create_usage (get_or_create_usage db now current_month user_id).2
        now2 current_month user_id).1
      = (get_or_create_usage db now current_month user_id).1
    ∧ (get_or_create_usage (get_or_create_usage db now current_month user_id).2
        now2 current_month user_id).2
      = (get_or_create_usage db now current_month user_id).2
    ∧ ((get_or_create_usage db now current_month user_id).2.usage_records.filter
        (fun r => r.user_id == user_id && r.month == current_month)).length = 1 := by
  cases h : find_usage_record db user_id current_month with
  | some r =>
    have hlen := one_le_filter_length_of_find?_eq_some _ _ _ h
    refine ⟨?_, ?_, ?_⟩ <;> (simp [get_or_create_usage, h]; try omega)
  | none =>
    have hfind2 : find_usage_record
        { db with
          usage_records := db.usage_records ++
            [{ id := db.next_usage_id, user_id := user_id, month := current_month,
               scans_used := 0, cover_letters_generated := 0,
               interview_questions_generated := 0, updated_at := now }],
          next_usage_id := db.next_usage_id + 1 } user_id current_month
        = some { id := db.next_usage_id, user_id := user_id, month := current_month,
                 scans_used := 0, cover_letters_generated := 0,
                 interview_questions_generated := 0, updated_at := now } := by
      unfold find_usage_record at h ⊢
      rw [List.find?_append, h]
      simp
    have hnil := filter_eq_nil_of_find?_eq_none _ _ h
    refine ⟨?_, ?_, ?_⟩ <;>
      simp [get_or_create_usage, h, hfind2, List.filter_append, hnil]

/-- Witness for C9 at the empty store: the second call returns the row the
first call created, and one row remains. -/
theorem get_or_create_usage_idempotent_witness :
    (get_or_create_usage (get_or_create_usage exDbEmpty 3 "2024-01" "u1").2
        4 "2024-01" "u1").1
      = (get_or_create_usage exDbEmpty 3 "2024-01" "u1").1
    ∧ (get_or_create_usage (get_or_create_usage exDbEmpty 3 "2024-01" "u1").2
        4 "2024-01" "u1").2
      = (get_or_create_usage exDbEmpty 3 "2024-01" "u1").2
    ∧ ((get_or_create_usage exDbEmpty 3 "2024-01" "u1").2.usage_records.filter
        (fun r => r.user_id == "u1" && r.month == "2024-01")).length = 1 :=
  get_or_create_usage_idempotent exDbEmpty 3 4 "2024-01" "u1" (by decide)

/-- On an unrecognized usage type the bump is a pure timestamp update. -/
theorem bump_usage_unknown (usage_type : String) (now : Nat) (r : UsageRecord)
    (h1 : usage_type ≠ "scan") (h2 : usage_type ≠ "cover_letter")
    (h3 : usage_type ≠ "interview_questions") :
    bump_usage usage_type now r = { r with updated_at := now } := by
  simp [bump_usage, h1, h2, h3]

/-- C10: `increment_usage` on an unrecognized usage type still reports
success; it creates and persists the zeroed current-month row when absent,
and otherwise only stamps `updated_at` on the first matching row — all
counters stay untouched. -/
theorem increment_usage_unknown_type (db : DB) (now : Nat)
    (current_month user_id usage_type : String)
    (h1 : usage_type ≠ "scan") (h2 : usage_type ≠ "cover_letter")
    (h3 : usage_type ≠ "interview_questions") :
    (increment_usage db now current_month user_id usage_type).1 = true
    ∧ (increment_usage db now current_month user_id usage_type).2.usage_records
        = (match find_usage_record db user_id current_month with
           | some _ =>
             updateFirst (fun r => r.user_id == user_id && r.month == current_month)
               (fun r => { r with updated_at := now }) db.usage_records
           | none => db.usage_records ++
               [{ id := db.next_usage_id, user_id := user_id, month := current_month,
                  scans_used := 0, cover_letters_generated := 0,
                  interview_questions_generated := 0, updated_at := now }]) := by
  have hb : bump_usage usage_type now = fun r => { r with updated_at := now } :=
    funext fun r => bump_usage_unknown usage_type now r h1 h2 h3
  cases h : find_usage_record db user_id current_month with
  | some r => exact ⟨by simp [increment_usage, h], by simp [increment_usage, h, hb]⟩
  | none => exact ⟨by simp [increment_usage, h], by simp [increment_usage, h, hb]⟩

/-- Witness for C10: an `"export"` increment against a row counting (2, 3, 4)
succeeds and only refreshes the row's timestamp. -/
theorem increment_usage_unknown_type_witness :
    (increment_usage exDbCounters 9 "2024-01" "u1" "export").1 = true
    ∧ (increment_usage exDbCounters 9 "2024-01" "u1" "export").2.usage_records
        = (match find_usage_record exDbCounters "u1" "2024-01" with
           | some _ =>
             updateFirst (fun r => r.user_id == "u1" && r.month == "2024-01")
               (fun r => { r with updated_at := 9 }) exDbCounters.usage_records
           | none => exDbCounters.usage_records ++
               [{ id := exDbCounters.next_usage_id, user_id := "u1", month := "2024-01",
                  scans_used := 0, cover_letters_generated := 0,
                  interview_questions_generated := 0, updated_at := 9 }]) :=
  increment_usage_unknown_type exDbCounters 9 "2024-01" "u1" "export"
    (by decide) (by decide) (by decide)

/-- C4: fetching a resume analysis enforces ownership inside the existence
check — a record belonging to another user fetches as `none`, exactly like a
nonexistent identifier, and a fetch succeeds precisely when a row with that
id belonging to the requester exists. -/
theorem get_resume_analysis_requires_ownership (db db2 db3 : DB) (analysis_id : Nat)
    (owner requester : String) (hneq : requester ≠ owner)
    (hown : ∀ a ∈ db.resume_analyses, a.id = analysis_id → a.user_id = owner)
    (habsent : ∀ a ∈ db2.resume_analyses, a.id ≠ analysis_id) :
    get_resume_analysis db analysis_id requester = none
    ∧ get_resume_analysis db2 analysis_id requester = none
    ∧ (get_resume_analysis db3 analysis_id requester).isSome
        = db3.resume_analyses.any (fun a => a.id == analysis_id && a.user_id == requester) := by
  refine ⟨?_, ?_, ?_⟩
  · have hfind : db.resume_analyses.find?
        (fun a => a.id == analysis_id && a.user_id == requester) = none := by
      rw [List.find?_eq_none]
      intro a ha
      simp only [Bool.and_eq_true, beq_iff_eq, not_and]
      intro hid hreq
      exact hneq (hreq ▸ hown a ha hid)
    simp [get_resume_analysis, hfind]
  · have hfind : db2.resume_analyses.find?
        (fun a => a.id == analysis_id && a.user_id == requester) = none := by
      rw [List.find?_eq_none]
      intro a ha
      simp only [Bool.and_eq_true, beq_iff_eq, not_and]
      intro hid _
      exact absurd hid (habsent a ha)
    simp [get_resume_analysis, hfind]
  · rw [any_eq_find?_isSome]
    cases h : db3.resume_analyses.find?
        (fun a => a.id == analysis_id && a.user_id == requester) <;>
      simp [get_resume_analysis, h]

/-- Witness for C4: `"bob"` fetching `"alice"`'s record 4 gets `none`, the
same as fetching it from an empty store. -/
theorem get_resume_analysis_requires_ownership_witness :
    get_resume_analysis exDbAnalysis 4 "bob" = none
    ∧ get_resume_analysis exDbEmpty 4 "bob" = none
    ∧ (get_resume_analysis exDbAnalysis 4 "bob").isSome
        = exDbAnalysis.resume_analyses.any (fun a => a.id == 4 && a.user_id == "bob") :=
  get_resume_analysis_requires_ownership exDbAnalysis exDbEmpty exDbAnalysis 4
    "alice" "bob" (by decide) (by decide) (by decide)

/-- C6 counterexample: merging `"new1"` onto the existing email of `"old1"`
does not re-point the old ledger row (3 scans) — it deletes it and installs a
fresh zeroed row for the new identity, so no row under `"new1"` carries the
old count. -/
theorem create_user_email_merge_deletes_ledger_rows :
    ((create_user exDbMerge 5 "2024-01" "new1" "a@example.com" "F" "" "L").2.usage_records.any
      (fun r => r.user_id == "new1" && r.scans_used == 3)) = false
    ∧ (create_user exDbMerge 5 "2024-01" "new1" "a@example.com" "F" "" "L").2.usage_records
        = [⟨8, "new1", "2024-01", 0, 0, 0, 5⟩] := by decide

/-- C6 as amended: on an email match under a different external id,
`create_user` re-keys the existing user row to the new id, updates its
profile fields, and creates no second user row — but instead of re-pointing
the user's usage-ledger rows it deletes them and installs a fresh zeroed
current-month row under the new identity. -/
theorem create_user_email_merge_rekeys_and_resets_ledger (db : DB) (now : Nat)
    (current_month user_id email first_name middle_name last_name : String) (eu : User)
    (hid : db.users.find? (fun u => u.id == user_id) = none)
    (hemail : db.users.find? (fun u => u.email == email) = some eu)
    (hneq : eu.id ≠ user_id) :
    (create_user db now current_month user_id email first_name middle_name last_name).1.id
      = user_id
    ∧ (create_user db now current_month user_id email first_name middle_name last_name).1.email
        = eu.email
    ∧ (create_user db now current_month user_id email first_name middle_name last_name).1.plan
        = eu.plan
    ∧ (create_user db now current_month user_id email first_name middle_name last_name).2.users
        = updateFirst (fun u => u.email == email)
            (fun u => { u with id := user_id, first_name := first_name,
                               middle_name := middle_name, last_name := last_name,
                               updated_at := now }) db.users
    ∧ (create_user db now current_month user_id email first_name middle_name last_name).2.users.length
        = db.users.length
    ∧ (create_user db now current_month user_id email first_name middle_name last_name).2.usage_records
        = db.usage_records.filter (fun r => r.user_id != eu.id)
          ++ [{ id := db.next_usage_id, user_id := user_id, month := current_month,
                scans_used := 0, cover_letters_generated := 0,
                interview_questions_generated := 0, updated_at := now }] := by
  refine ⟨?_, ?_, ?_, ?_, ?_, ?_⟩ <;>
    simp [create_user, hid, hemail, if_pos hneq, updateFirst_length]

/-- Witness for C6's amended theorem at the concrete merge scenario. -/
theorem create_user_email_merge_rekeys_and_resets_ledger_witness :
    (create_user exDbMerge 5 "2024-01" "new1" "a@example.com" "F" "" "L").1.id = "new1"
    ∧ (create_user exDbMerge 5 "2024-01" "new1" "a@example.com" "F" "" "L").1.email
        = (⟨"old1", "a@example.com", "", "", "", "free", 0⟩ : User).email
    ∧ (create_user exDbMerge 5 "2024-01" "new1" "a@example.com" "F" "" "L").1.plan
        = (⟨"old1", "a@example.com", "", "", "", "free", 0⟩ : User).plan
    ∧ (create_user exDbMerge 5 "2024-01" "new1" "a@example.com" "F" "" "L").2.users
        = updateFirst (fun u => u.email == "a@example.com")
            (fun u => { u with id := "new1", first_name := "F",
                               middle_name := "", last_name := "L",
                               updated_at := 5 }) exDbMerge.users
    ∧ (create_user exDbMerge 5 "2024-01" "new1" "a@example.com" "F" "" "L").2.users.length
        = exDbMerge.users.length
    ∧ (create_user exDbMerge 5 "2024-01" "new1" "a@example.com" "F" "" "L").2.usage_records
        = exDbMerge.usage_records.filter (fun r => r.user_id != "old1")
          ++ [{ id := exDbMerge.next_usage_id, user_id := "new1", month := "2024-01",
                scans_used := 0, cover_letters_generated := 0,
                interview_questions_generated := 0, updated_at := 5 }] :=
  create_user_email_merge_rekeys_and_resets_ledger exDbMerge 5 "2024-01" "new1"
    "a@example.com" "F" "" "L" ⟨"old1", "a@example.com", "", "", "", "free", 0⟩
    (by decide) (by decide) (by decide)

/-- Character code of a digit character produced by `digitChar`. -/
theorem digitChar_toNat (k : Nat) (h : k < 10) : (digitChar k).toNat = 48 + k := by
  interval_cases k <;> decide

/-- `digitChar` produces digit characters. -/
theorem isDigitChar_digitChar (k : Nat) (h : k < 10) :
    isDigitChar (digitChar k) = true := by
  interval_cases k <;> decide

/-- Fuel irrelevance for `natDigitsF`: any fuel above `n` computes
`natDigits n`. -/
theorem natDigitsF_fuel (m : Nat) : ∀ f : Nat, m < f → natDigitsF f m = natDigits m := by
  induction m using Nat.strong_induction_on with
  | _ m ih =>
    intro f hf
    match f with
    | fuel + 1 =>
      by_cases h10 : m < 10
      · simp [natDigitsF, natDigits, h10]
      · have hd : m / 10 < m := Nat.div_lt_self (by omega) (by omega)
        have hm : natDigits m = natDigitsF m (m / 10) ++ [digitChar (m % 10)] := by
          simp [natDigits, natDigitsF, h10]
        simp only [natDigitsF, if_neg h10, hm]
        rw [ih (m / 10) hd fuel (by omega), ih (m / 10) hd m (by omega)]

/-- One-step unfolding of `natDigits`. -/
theorem natDigits_unfold (n : Nat) :
    natDigits n = if n < 10 then [digitChar n]
      else natDigits (n / 10) ++ [digitChar (n % 10)] := by
  by_cases h10 : n < 10
  · simp [natDigits, natDigitsF, h10]
  · have h1 : natDigits n = natDigitsF n (n / 10) ++ [digitChar (n % 10)] := by
      simp [natDigits, natDigitsF, h10]
    rw [h1, natDigitsF_fuel (n / 10) n (by omega), if_neg h10]

/-- `natDigits` is never empty. -/
theorem natDigits_ne_nil (n : Nat) : natDigits n ≠ [] := by
  rw [natDigits_unfold]
  by_cases h10 : n < 10 <;> simp [h10]

/-- Every character of `natDigits` is a digit. -/
theorem natDigits_all_digits (n : Nat) : ∀ c ∈ natDigits n, isDigitChar c = true := by
  induction n using Nat.strong_induction_on with
  | _ n ih =>
    rw [natDigits_unfold]
    by_cases h10 : n < 10
    · simp only [if_pos h10, List.mem_singleton]
      rintro c rfl
      exact isDigitChar_digitChar n h10
    · simp only [if_neg h10, List.mem_append, List.mem_singleton]
      rintro c (hc | rfl)
      · exact ih (n / 10) (Nat.div_lt_self (by omega) (by omega)) c hc
      · exact isDigitChar_digitChar (n % 10) (Nat.mod_lt _ (by omega))

/-- `natOfDigits` inverts `natDigits`. -/
theorem natOfDigits_natDigits (n : Nat) : natOfDigits (natDigits n) = n := by
  induction n using Nat.strong_induction_on with
  | _ n ih =>
    rw [natDigits_unfold]
    by_cases h10 : n < 10
    · simp [if_pos h10, natOfDigits, digitChar_toNat n h10]
    · simp only [if_neg h10, natOfDigits, List.foldl_append, List.foldl_cons, List.foldl_nil]
      have := ih (n / 10) (Nat.div_lt_self (by omega) (by omega))
      rw [natOfDigits] at this
      rw [this, digitChar_toNat (n % 10) (Nat.mod_lt _ (by omega))]
      omega

/-- `takeDigits` consumes exactly a leading digit run when the remainder
starts with a non-digit. -/
theorem takeDigits_append (ds rest : List Char) (hds : ∀ c ∈ ds, isDigitChar c = true)
    (hrest : numTailOk rest = true) : takeDigits (ds ++ rest) = (ds, rest) := by
  induction ds with
  | nil =>
    cases rest with
    | nil => rfl
    | cons c t =>
      simp only [numTailOk, Bool.not_eq_true'] at hrest
      simp [takeDigits, hrest]
  | cons c t ih =>
    have hc : isDigitChar c = true := hds c (List.mem_cons_self _ _)
    have ht := ih fun x hx => hds x (List.mem_cons_of_mem _ hx)
    simp [takeDigits, hc, ht]

/-- A digit character is none of the tokens the value dispatcher tests, nor a
sign, nor whitespace, nor a closing delimiter. -/
theorem digit_char_ne (c : Char) (h : isDigitChar c = true) :
    c ≠ '-' ∧ c ≠ '"' ∧ c ≠ ']' ∧ c ≠ cbraceChar ∧ c ≠ '[' ∧ c ≠ obraceChar
    ∧ c ≠ 'n' ∧ c ≠ 't' ∧ c ≠ 'f' ∧ isWsChar c = false := by
  refine ⟨?_, ?_, ?_, ?_, ?_, ?_, ?_, ?_, ?_, ?_⟩ <;>
    first
    | (intro h2; rw [h2] at h; exact absurd h (by decide))
    | (simp only [isWsChar, Bool.or_eq_false_iff, beq_eq_false_iff_ne]
       refine ⟨⟨⟨?_, ?_⟩, ?_⟩, ?_⟩ <;> (intro h2; rw [h2] at h; exact absurd h (by decide)))

/-- The digit list of a rendered natural is nonempty, so `isEmpty` is false. -/
theorem natDigits_isEmpty_false (n : Nat) : (natDigits n).isEmpty = false := by
  cases hh : natDigits n with
  | nil => exact absurd hh (natDigits_ne_nil n)
  | cons c t => rfl

/-- `parseNum` inverts the integer renderer whenever the remainder cannot
extend the digit run. -/
theorem parseNum_intDigits (n : Int) (rest : List Char) (hrest : numTailOk rest = true) :
    parseNum (intDigits n ++ rest) = some (n, rest) := by
  by_cases hn : n < 0
  · have harg : intDigits n ++ rest = '-' :: (natDigits n.natAbs ++ rest) := by
      simp [intDigits, hn]
    rw [harg]
    simp only [parseNum, if_true, reduceIte]
    rw [takeDigits_append _ _ (natDigits_all_digits n.natAbs) hrest]
    simp only [natDigits_isEmpty_false, Bool.false_eq_true, if_false,
      natOfDigits_natDigits, Option.some.injEq, Prod.mk.injEq, and_true]
    omega
  · have harg : intDigits n ++ rest = natDigits n.natAbs ++ rest := by
      simp [intDigits, hn]
    obtain ⟨c, t, hct⟩ : ∃ c t, natDigits n.natAbs = c :: t := by
      cases hh : natDigits n.natAbs with
      | nil => exact absurd hh (natDigits_ne_nil _)
      | cons c t => exact ⟨c, t, rfl⟩
    have hc : isDigitChar c = true :=
      natDigits_all_digits n.natAbs c (by rw [hct]; exact List.mem_cons_self _ _)
    have hminus : c ≠ '-' := (digit_char_ne c hc).1
    rw [harg, hct, List.cons_append]
    simp only [parseNum, if_neg hminus]
    rw [show c :: (t ++ rest) = (c :: t) ++ rest from rfl, ← hct,
      takeDigits_append _ _ (natDigits_all_digits n.natAbs) hrest]
    simp only [natDigits_isEmpty_false, Bool.false_eq_true, if_false,
      natOfDigits_natDigits, Option.some.injEq, Prod.mk.injEq, and_true]
    omega

/-- `hexVal` inverts `hexDigitChar` below 16. -/
theorem hexVal_hexDigitChar (k : Nat) (h : k < 16) :
    hexVal (hexDigitChar k) = some k := by
  interval_cases k <;> decide

/-- Rebuilding a string structure from its character data is the identity. -/
theorem string_mk_data (s : String) : String.mk s.data = s := rfl

/-- Parsing one escaped character undoes `escapeChar` and continues. -/
theorem parseStr_escapeChar (c : Char) (tail : List Char) :
    parseStr (escapeChar c ++ tail)
      = (parseStr tail).map (fun p => (c :: p.1, p.2)) := by
  by_cases h1 : c = '"'
  · subst h1
    rw [show escapeChar '"' ++ tail = '\\' :: '"' :: tail from rfl, parseStr.eq_def]
    simp only [reduceIte, unescapeChar]
    cases h : parseStr tail with
    | none => rfl
    | some p => cases p; rfl
  · by_cases h2 : c = '\\'
    · subst h2
      rw [show escapeChar '\\' ++ tail = '\\' :: '\\' :: tail from rfl, parseStr.eq_def]
      simp only [reduceIte, unescapeChar]
      cases h : parseStr tail with
      | none => rfl
      | some p => cases p; rfl
    · by_cases h3 : c = '\n'
      · subst h3
        rw [show escapeChar '\n' ++ tail = '\\' :: 'n' :: tail from rfl, parseStr.eq_def]
        simp only [reduceIte, unescapeChar]
        cases h : parseStr tail with
        | none => rfl
        | some p => cases p; rfl
      · by_cases h4 : c = '\t'
        · subst h4
          rw [show escapeChar '\t' ++ tail = '\\' :: 't' :: tail from rfl, parseStr.eq_def]
          simp only [reduceIte, unescapeChar]
          cases h : parseStr tail with
          | none => rfl
          | some p => cases p; rfl
        · by_cases h5 : c = '\r'
          · subst h5
            rw [show escapeChar '\r' ++ tail = '\\' :: 'r' :: tail from rfl,
              parseStr.eq_def]
            simp only [reduceIte, unescapeChar]
            cases h : parseStr tail with
            | none => rfl
            | some p => cases p; rfl
          · by_cases h6 : c = Char.ofNat 8
            · subst h6
              rw [show escapeChar (Char.ofNat 8) ++ tail = '\\' :: 'b' :: tail from rfl,
                parseStr.eq_def]
              simp only [reduceIte, unescapeChar]
              cases h : parseStr tail with
              | none => rfl
              | some p => cases p; rfl
            · by_cases h7 : c = Char.ofNat 12
              · subst h7
                rw [show escapeChar (Char.ofNat 12) ++ tail = '\\' :: 'f' :: tail from rfl,
                  parseStr.eq_def]
                simp only [reduceIte, unescapeChar]
                cases h : parseStr tail with
                | none => rfl
                | some p => cases p; rfl
              · by_cases h8 : c.toNat < 32
                · have harg : escapeChar c ++ tail
                      = '\\' :: 'u' :: '0' :: '0' :: hexDigitChar (c.toNat / 16)
                        :: hexDigitChar (c.toNat % 16) :: tail := by
                    simp [escapeChar, h1, h2, h3, h4, h5, h6, h7, h8]
                  rw [harg, parseStr.eq_def]
                  simp only [reduceIte]
                  rw [show hexVal '0' = some 0 from by decide,
                    hexVal_hexDigitChar (c.toNat / 16) (by omega),
                    hexVal_hexDigitChar (c.toNat % 16) (by omega)]
                  simp only [reduceIte]
                  rw [show ((0 * 16 + 0) * 16 + c.toNat / 16) * 16 + c.toNat % 16
                      = c.toNat from by omega, Char.ofNat_toNat]
                  cases h : parseStr tail with
                  | none => rfl
                  | some p => cases p; rfl
                · have harg : escapeChar c ++ tail = c :: tail := by
                    simp [escapeChar, h1, h2, h3, h4, h5, h6, h7, h8]
                  rw [harg, parseStr.eq_def]
                  simp only [if_neg h1, if_neg h2]
                  cases h : parseStr tail with
                  | none => rfl
                  | some p => cases p; rfl

/-- Parsing an escaped string body stops exactly at the closing quote. -/
theorem parseStr_escapeChars (s tail : List Char) :
    parseStr (escapeChars s ++ '"' :: tail) = some (s, tail) := by
  induction s with
  | nil =>
    rw [show escapeChars ([] : List Char) ++ '"' :: tail = '"' :: tail from rfl,
      parseStr.eq_def]
    simp only [reduceIte]
  | cons c t ih =>
    rw [escapeChars, List.append_assoc, parseStr_escapeChar, ih]
    rfl

/-- `skipWs` is the identity on input that does not start with whitespace. -/
theorem skipWs_cons_not_ws (c : Char) (cs : List Char) (h : isWsChar c = false) :
    skipWs (c :: cs) = c :: cs := by
  simp [skipWs, h]

/-- `skipWs` drops a leading whitespace character. -/
theorem skipWs_cons_ws (c : Char) (cs : List Char) (h : isWsChar c = true) :
    skipWs (c :: cs) = skipWs cs := by
  simp [skipWs, h]

/-- One-step unfolding of `parseVal` at successor fuel (definitional). -/
theorem parseVal_succ (f : Nat) (cs : List Char) :
    parseVal (f + 1) cs
      = (match skipWs cs with
        | [] => none
        | c :: r =>
          if c = 'n' then
            match r with
            | 'u' :: 'l' :: 'l' :: r2 => some (.null, r2)
            | _ => none
          else if c = 't' then
            match r with
            | 'r' :: 'u' :: 'e' :: r2 => some (.bool true, r2)
            | _ => none
          else if c = 'f' then
            match r with
            | 'a' :: 'l' :: 's' :: 'e' :: r2 => some (.bool false, r2)
            | _ => none
          else if c = '"' then
            match parseStr r with
            | some (s, r2) => some (.str (String.mk s), r2)
            | none => none
          else if c = '[' then
            match skipWs r with
            | [] => none
            | c2 :: r2 =>
              if c2 = ']' then some (.arr .nil, r2)
              else
                match parseElems f (c2 :: r2) with
                | some (xs, r3) => some (.arr xs, r3)
                | none => none
          else if c = obraceChar then
            match skipWs r with
            | [] => none
            | c2 :: r2 =>
              if c2 = cbraceChar then some (.obj .nil, r2)
              else
                match parseMembers f (c2 :: r2) with
                | some (ms, r3) => some (.obj ms, r3)
                | none => none
          else if isDigitChar c || c = '-' then
            match parseNum (c :: r) with
            | some (n, r2) => some (.num n, r2)
            | none => none
          else none) := rfl

/-- One-step unfolding of `parseElems` at successor fuel (definitional). -/
theorem parseElems_succ (f : Nat) (cs : List Char) :
    parseElems (f + 1) cs
      = (match parseVal f cs with
        | none => none
        | some (v, r) =>
          match skipWs r with
          | [] => none
          | c :: r2 =>
            if c = ',' then
              match parseElems f r2 with
              | some (tl, r3) => some (.cons v tl, r3)
              | none => none
            else if c = ']' then some (.cons v .nil, r2)
            else none) := rfl

/-- One-step unfolding of `parseMembers` at successor fuel (definitional). -/
theorem parseMembers_succ (f : Nat) (cs : List Char) :
    parseMembers (f + 1) cs
      = (match skipWs cs with
        | [] => none
        | c :: r =>
          if c = '"' then
            match parseStr r with
            | none => none
            | some (k, r1) =>
              match skipWs r1 with
              | [] => none
              | c2 :: r2 =>
                if c2 = ':' then
                  match parseVal f r2 with
                  | none => none
                  | some (v, r3) =>
                    match skipWs r3 with
                    | [] => none
                    | c3 :: r4 =>
                      if c3 = ',' then
                        match parseMembers f r4 with
                        | some (tl, r5) => some (.cons (String.mk k) v tl, r5)
                        | none => none
                      else if c3 = cbraceChar then some (.cons (String.mk k) v .nil, r4)
                      else none
                else none
          else none) := rfl

/-- `parseVal` ignores a leading whitespace character. -/
theorem parseVal_ws (f : Nat) (c : Char) (cs : List Char) (h : isWsChar c = true) :
    parseVal f (c :: cs) = parseVal f cs := by
  cases f with
  | zero => rfl
  | succ f => rw [parseVal_succ, parseVal_succ, skipWs_cons_ws _ _ h]

/-- `parseElems` ignores a leading whitespace character. -/
theorem parseElems_ws (f : Nat) (c : Char) (cs : List Char) (h : isWsChar c = true) :
    parseElems f (c :: cs) = parseElems f cs := by
  cases f with
  | zero => rfl
  | succ f => rw [parseElems_succ, parseElems_succ, parseVal_ws _ _ _ h]

/-- `parseMembers` ignores a leading whitespace character. -/
theorem parseMembers_ws (f : Nat) (c : Char) (cs : List Char) (h : isWsChar c = true) :
    parseMembers f (c :: cs) = parseMembers f cs := by
  cases f with
  | zero => rfl
  | succ f => rw [parseMembers_succ, parseMembers_succ, skipWs_cons_ws _ _ h]

/-- Every rendered value starts with a non-whitespace character other than
`]` (so array parsing cannot mistake it for an empty-array close). -/
theorem dumpVal_head (j : Jsonv) :
    ∃ c t, dumpVal j = c :: t ∧ isWsChar c = false ∧ c ≠ ']' := by
  cases j with
  | null => exact ⟨'n', _, rfl, by decide, by decide⟩
  | bool b =>
    cases b with
    | true => exact ⟨'t', _, rfl, by decide, by decide⟩
    | false => exact ⟨'f', _, rfl, by decide, by decide⟩
  | str s => exact ⟨'"', escapeChars s.data ++ ['"'], rfl, by decide, by decide⟩
  | num n =>
    by_cases hn : n < 0
    · exact ⟨'-', natDigits n.natAbs, by
        rw [show dumpVal (.num n) = intDigits n from rfl, intDigits, if_pos hn],
        by decide, by decide⟩
    · obtain ⟨c, t, hct⟩ : ∃ c t, natDigits n.natAbs = c :: t := by
        cases hh : natDigits n.natAbs with
        | nil => exact absurd hh (natDigits_ne_nil _)
        | cons c t => exact ⟨c, t, rfl⟩
      have hc : isDigitChar c = true :=
        natDigits_all_digits n.natAbs c (by rw [hct]; exact List.mem_cons_self _ _)
      refine ⟨c, t, ?_, (digit_char_ne c hc).2.2.2.2.2.2.2.2.2, (digit_char_ne c hc).2.2.1⟩
      rw [show dumpVal (.num n) = intDigits n from rfl, intDigits, if_neg hn, hct]
  | arr xs =>
    cases xs with
    | nil => exact ⟨'[', _, rfl, by decide, by decide⟩
    | cons v tl => exact ⟨'[', _, rfl, by decide, by decide⟩
  | obj ms =>
    cases ms with
    | nil => exact ⟨obraceChar, _, rfl, by decide, by decide⟩
    | cons k v tl => exact ⟨obraceChar, _, rfl, by decide, by decide⟩

/-- `skipWs` is the identity in front of any rendered value. -/
theorem skipWs_dumpVal (j : Jsonv) (x : List Char) :
    skipWs (dumpVal j ++ x) = dumpVal j ++ x := by
  obtain ⟨c, t, h, hws, _⟩ := dumpVal_head j
  rw [h, List.cons_append, skipWs_cons_not_ws _ _ hws]

/-- What follows a rendered array element can never extend a number. -/
theorem numTailOk_elems (tl : JArr) (rest : List Char) :
    numTailOk (dumpElemsRest tl ++ ']' :: rest) = true := by
  cases tl <;> rfl

/-- What follows a rendered object member can never extend a number. -/
theorem numTailOk_members (tl : JObj) (rest : List Char) :
    numTailOk (dumpMembersRest tl ++ cbraceChar :: rest) = true := by
  cases tl <;> rfl

/-- Every value needs at least one unit of parser fuel. -/
theorem jfuel_pos (j : Jsonv) : 1 ≤ jfuel j := by
  cases j <;> simp [jfuel]

/-- The parser branch taken on a leading quote (definitional). -/
theorem parseVal_quote (f : Nat) (r : List Char) :
    parseVal (f + 1) ('"' :: r)
      = (match parseStr r with
        | some (s, r2) => some (.str (String.mk s), r2)
        | none => none) := rfl

/-- The parser branch taken on a leading minus sign (definitional). -/
theorem parseVal_minus (f : Nat) (r : List Char) :
    parseVal (f + 1) ('-' :: r)
      = (match parseNum ('-' :: r) with
        | some (n, r2) => some (.num n, r2)
        | none => none) := rfl

/-- The parser branch taken on a leading `[` (definitional). -/
theorem parseVal_lbracket (f : Nat) (r : List Char) :
    parseVal (f + 1) ('[' :: r)
      = (match skipWs r with
        | [] => none
        | c2 :: r2 =>
          if c2 = ']' then some (.arr .nil, r2)
          else
            match parseElems f (c2 :: r2) with
            | some (xs, r3) => some (.arr xs, r3)
            | none => none) := rfl

/-- The parser branch taken on a leading opening brace (definitional). -/
theorem parseVal_obrace (f : Nat) (r : List Char) :
    parseVal (f + 1) (obraceChar :: r)
      = (match skipWs r with
        | [] => none
        | c2 :: r2 =>
          if c2 = cbraceChar then some (.obj .nil, r2)
          else
            match parseMembers f (c2 :: r2) with
            | some (ms, r3) => some (.obj ms, r3)
            | none => none) := rfl

mutual
/-- Round trip for one value: parsing its rendering, given enough fuel and a
remainder that cannot extend a number, recovers it exactly. -/
theorem rt_val : ∀ (j : Jsonv) (f : Nat) (rest : List Char),
    jfuel j ≤ f → numTailOk rest = true →
    parseVal f (dumpVal j ++ rest) = some (j, rest)
  | j, 0, _, hf, _ => absurd (le_trans (jfuel_pos j) hf) (by omega)
  | .null, f + 1, rest, _, _ => rfl
  | .bool true, f + 1, rest, _, _ => rfl
  | .bool false, f + 1, rest, _, _ => rfl
  | .num n, f + 1, rest, _, hrest => by
    by_cases hn : n < 0
    · have harg : dumpVal (.num n) ++ rest = '-' :: (natDigits n.natAbs ++ rest) := by
        rw [show dumpVal (.num n) = intDigits n from rfl, intDigits, if_pos hn]
        rfl
      rw [harg, parseVal_minus]
      rw [show ('-' :: (natDigits n.natAbs ++ rest)) = intDigits n ++ rest from by
          rw [intDigits, if_pos hn]; rfl,
        parseNum_intDigits n rest hrest]
    · obtain ⟨c, t, hct⟩ : ∃ c t, natDigits n.natAbs = c :: t := by
        cases hh : natDigits n.natAbs with
        | nil => exact absurd hh (natDigits_ne_nil _)
        | cons c t => exact ⟨c, t, rfl⟩
      have hc : isDigitChar c = true :=
        natDigits_all_digits n.natAbs c (by rw [hct]; exact List.mem_cons_self _ _)
      obtain ⟨hm, hq, hbr, hcb, hlb, hob, hn', ht', hf', hws⟩ := digit_char_ne c hc
      have harg : dumpVal (.num n) ++ rest = c :: (t ++ rest) := by
        rw [show dumpVal (.num n) = intDigits n from rfl, intDigits, if_neg hn, hct]
        rfl
      rw [harg, parseVal_succ, skipWs_cons_not_ws _ _ hws]
      simp only [reduceIte]
      rw [if_neg hn', if_neg ht', if_neg hf', if_neg hq, if_neg hlb, if_neg hob, hc]
      simp only [Bool.true_or, reduceIte]
      rw [show c :: (t ++ rest) = intDigits n ++ rest from by
          rw [intDigits, if_neg hn, hct]; rfl,
        parseNum_intDigits n rest hrest]
  | .str s, f + 1, rest, _, _ => by
    rw [show dumpVal (.str s) ++ rest = '"' :: (escapeChars s.data ++ ('"' :: rest)) from by
        simp [dumpVal, dumpStr]]
    rw [parseVal_quote, parseStr_escapeChars]
  | .arr .nil, f + 1, rest, _, _ => rfl
  | .arr (.cons v tl), f + 1, rest, hf, _ => by
    have harg : dumpVal (.arr (.cons v tl)) ++ rest
        = '[' :: (dumpVal v ++ (dumpElemsRest tl ++ (']' :: rest))) := by
      simp [dumpVal]
    rw [harg, parseVal_lbracket]
    obtain ⟨c, t, hct, hws, hbr⟩ := dumpVal_head v
    rw [skipWs_dumpVal v _, hct, List.cons_append]
    simp only [reduceIte]
    rw [if_neg hbr]
    have he := rt_elems v tl f rest (by simp only [jfuel] at hf; omega)
    rw [show c :: (t ++ (dumpElemsRest tl ++ (']' :: rest)))
        = dumpVal v ++ (dumpElemsRest tl ++ (']' :: rest)) from by rw [hct]; rfl, he]
  | .obj .nil, f + 1, rest, _, _ => rfl
  | .obj (.cons k v tl), f + 1, rest, hf, _ => by
    have harg : dumpVal (.obj (.cons k v tl)) ++ rest
        = obraceChar :: (dumpMember k v ++ (dumpMembersRest tl ++ (cbraceChar :: rest))) := by
      simp [dumpVal, dumpMember]
    rw [harg, parseVal_obrace]
    have hshape : dumpMember k v ++ (dumpMembersRest tl ++ (cbraceChar :: rest))
        = '"' :: ((escapeChars k.data ++ ['"'])
            ++ (':' :: (' ' :: (dumpVal v ++ (dumpMembersRest tl ++ (cbraceChar :: rest)))))) := by
      simp [dumpMember, dumpStr]
    rw [hshape, skipWs_cons_not_ws _ _ (by decide)]
    simp only [reduceIte]
    rw [if_neg (show ¬('"' : Char) = cbraceChar from by decide)]
    have hm := rt_members k v tl f rest (by simp only [jfuel] at hf; omega)
    rw [show ('"' : Char) :: ((escapeChars k.data ++ ['"'])
          ++ (':' :: (' ' :: (dumpVal v ++ (dumpMembersRest tl ++ (cbraceChar :: rest))))))
        = dumpMember k v ++ (dumpMembersRest tl ++ (cbraceChar :: rest)) from by
        simp [dumpMember, dumpStr], hm]
termination_by j _ _ _ _ => sizeOf j

/-- Round trip for a nonempty element list up to its closing `]`. -/
theorem rt_elems : ∀ (v : Jsonv) (tl : JArr) (f : Nat) (rest : List Char),
    afuel (.cons v tl) ≤ f →
    parseElems f (dumpVal v ++ (dumpElemsRest tl ++ (']' :: rest)))
      = some (.cons v tl, rest)
  | _, _, 0, _, hf => absurd hf (by simp [afuel])
  | v, tl, f + 1, rest, hf => by
    rw [parseElems_succ]
    have hv := rt_val v f (dumpElemsRest tl ++ (']' :: rest))
      (by simp only [afuel] at hf; omega) (numTailOk_elems tl rest)
    rw [hv]
    simp only []
    cases tl with
    | nil =>
      simp only [dumpElemsRest, List.nil_append]
      rw [skipWs_cons_not_ws _ _ (by decide)]
      simp only [Char.reduceEq, reduceIte]
    | cons v2 tl2 =>
      have hx : dumpElemsRest (.cons v2 tl2) ++ (']' :: rest)
          = ',' :: (' ' :: (dumpVal v2 ++ (dumpElemsRest tl2 ++ (']' :: rest)))) := by
        simp [dumpElemsRest]
      rw [hx, skipWs_cons_not_ws _ _ (by decide)]
      simp only [Char.reduceEq, reduceIte]
      rw [parseElems_ws f ' ' _ (by decide)]
      have he := rt_elems v2 tl2 f rest (by simp only [afuel] at hf ⊢; omega)
      rw [he]
termination_by v tl _ _ _ => sizeOf v + sizeOf tl + 1

/-- Round trip for a nonempty member list up to its closing brace. -/
theorem rt_members : ∀ (k : String) (v : Jsonv) (tl : JObj) (f : Nat) (rest : List Char),
    ofuel (.cons k v tl) ≤ f →
    parseMembers f (dumpMember k v ++ (dumpMembersRest tl ++ (cbraceChar :: rest)))
      = some (.cons k v tl, rest)
  | _, _, _, 0, _, hf => absurd hf (by simp [ofuel])
  | k, v, tl, f + 1, rest, hf => by
    rw [parseMembers_succ]
    have hshape : dumpMember k v ++ (dumpMembersRest tl ++ (cbraceChar :: rest))
        = '"' :: (escapeChars k.data
            ++ ('"' :: (':' :: (' ' :: (dumpVal v ++ (dumpMembersRest tl ++ (cbraceChar :: rest))))))) := by
      simp [dumpMember, dumpStr]
    rw [hshape, skipWs_cons_not_ws _ _ (by decide)]
    simp only [Char.reduceEq, reduceIte]
    rw [parseStr_escapeChars]
    simp only []
    rw [skipWs_cons_not_ws _ _ (by decide)]
    simp only [Char.reduceEq, reduceIte]
    rw [parseVal_ws f ' ' _ (by decide)]
    have hv := rt_val v f (dumpMembersRest tl ++ (cbraceChar :: rest))
      (by simp only [ofuel] at hf; omega) (numTailOk_members tl rest)
    rw [hv]
    simp only []
    cases tl with
    | nil =>
      simp only [dumpMembersRest, List.nil_append]
      rw [skipWs_cons_not_ws _ _ (by decide)]
      simp only [reduceIte]
      rfl
    | cons k2 v2 tl2 =>
      have hx : dumpMembersRest (.cons k2 v2 tl2) ++ (cbraceChar :: rest)
          = ',' :: (' ' :: (dumpMember k2 v2 ++ (dumpMembersRest tl2 ++ (cbraceChar :: rest)))) := by
        simp [dumpMembersRest, dumpMember]
      rw [hx, skipWs_cons_not_ws _ _ (by decide)]
      simp only [Char.reduceEq, reduceIte]
      rw [parseMembers_ws f ' ' _ (by decide)]
      have hm := rt_members k2 v2 tl2 f rest (by simp only [ofuel] at hf ⊢; omega)
      rw [hm]
termination_by _ v tl _ _ _ => sizeOf v + sizeOf tl + 1
end

mutual
/-- The rendering of a value is at least as long as the fuel it needs. -/
theorem jfuel_le_dump : ∀ j : Jsonv, jfuel j ≤ (dumpVal j).length
  | .null => by simp [jfuel, dumpVal]
  | .bool true => by simp [jfuel, dumpVal]
  | .bool false => by simp [jfuel, dumpVal]
  | .num n => by
    have h := natDigits_ne_nil n.natAbs
    rw [jfuel, show dumpVal (.num n) = intDigits n from rfl, intDigits]
    by_cases hn : n < 0
    · simp [hn]
    · rw [if_neg hn]
      cases hh : natDigits n.natAbs with
      | nil => exact absurd hh h
      | cons c t => simp
  | .str s => by simp [jfuel, dumpVal, dumpStr]
  | .arr .nil => by simp [jfuel, afuel, dumpVal]
  | .arr (.cons v tl) => by
    have h1 := jfuel_le_dump v
    have h2 := afuel_le_elems tl
    simp only [jfuel, afuel, dumpVal, List.length_cons, List.length_append,
      List.length_singleton]
    omega
  | .obj .nil => by simp [jfuel, ofuel, dumpVal]
  | .obj (.cons k v tl) => by
    have h1 := jfuel_le_dump v
    have h2 := ofuel_le_members tl
    simp only [jfuel, ofuel, dumpVal, List.length_cons, List.length_append,
      List.length_singleton]
    omega
termination_by j => sizeOf j

/-- The rendering of the remaining elements covers their fuel. -/
theorem afuel_le_elems : ∀ tl : JArr, afuel tl ≤ (dumpElemsRest tl).length
  | .nil => by simp [afuel, dumpElemsRest]
  | .cons v tl => by
    have h1 := jfuel_le_dump v
    have h2 := afuel_le_elems tl
    simp only [afuel, dumpElemsRest, List.length_cons, List.length_append]
    omega
termination_by tl => sizeOf tl

/-- The rendering of the remaining members covers their fuel. -/
theorem ofuel_le_members : ∀ tl : JObj, ofuel tl ≤ (dumpMembersRest tl).length
  | .nil => by simp [ofuel, dumpMembersRest]
  | .cons k v tl => by
    have h1 := jfuel_le_dump v
    have h2 := ofuel_le_members tl
    simp only [ofuel, dumpMembersRest, dumpStr, List.length_cons, List.length_append]
    omega
termination_by tl => sizeOf tl
end

/-- The codec round trip: `json.loads` recovers every value `json.dumps`
serialized. -/
theorem loads_dumps (j : Jsonv) : loads (dumps j) = some j := by
  rw [loads]
  have hd : (dumps j).data = dumpVal j := rfl
  have hv := rt_val j ((dumpVal j).length + 1) []
    (le_trans (jfuel_le_dump j) (by omega)) rfl
  rw [List.append_nil] at hv
  rw [hd, hv]
  rfl

/-- A stored payload column written by `save_resume_analysis` always decodes
back to the value that was saved. -/
theorem decode_payload_dumps (j : Jsonv) : decode_payload (dumps j) = some j := by
  have hne : dumps j ≠ "" := by
    obtain ⟨c, t, h, _, _⟩ := dumpVal_head j
    simp [dumps, h]
    intro hcontra
    exact absurd (congrArg String.data hcontra) (by simp [h])
  rw [decode_payload, if_neg hne, loads_dumps]

/-- Sorting by recency is insensitive to appending the newest record: it
comes out in front. -/
theorem sortByCreatedDesc_append_newest (l : List ResumeAnalysis) (a : ResumeAnalysis)
    (h : ∀ x ∈ l, x.created_at < a.created_at) :
    sortByCreatedDesc (l ++ [a]) = a :: sortByCreatedDesc l := by
  induction l with
  | nil => rfl
  | cons b bs ih =>
    have hb : b.created_at < a.created_at := h b (by simp)
    rw [List.cons_append, sortByCreatedDesc, ih (fun x hx => h x (by simp [hx])),
      sortByCreatedDesc, insertByCreatedDesc, if_neg (by omega)]

/-- Insertion keeps the number of records. -/
theorem insertByCreatedDesc_length (a : ResumeAnalysis) (l : List ResumeAnalysis) :
    (insertByCreatedDesc a l).length = l.length + 1 := by
  induction l with
  | nil => rfl
  | cons b bs ih =>
    rw [insertByCreatedDesc]
    by_cases hb : b.created_at ≤ a.created_at
    · rw [if_pos hb]; simp
    · rw [if_neg hb]; simp [ih]

/-- Sorting keeps the number of records. -/
theorem sortByCreatedDesc_length (l : List ResumeAnalysis) :
    (sortByCreatedDesc l).length = l.length := by
  induction l with
  | nil => rfl
  | cons b bs ih => rw [sortByCreatedDesc, insertByCreatedDesc_length, ih]; rfl

/-- C5: payload round trip and corruption tolerance.  Saving an analysis and
then fetching it by id — or listing, where it arrives first while newest —
returns the exact payload structures that were saved (`json.dumps` then
`json.loads` is the identity); the list endpoint always returns its records
(its length never drops from a bad payload), and a record whose stored
payload no longer parses is still returned, with the payload fields
defaulted to the empty dict instead of raising. -/
theorem save_resume_analysis_roundtrip (db : DB) (now : Nat)
    (user_id resume_text job_description : String) (e k j : JObj) (rfid : Option Nat)
    (limit : Nat) (rec : ResumeAnalysis)
    (hfresh : ∀ a ∈ db.resume_analyses, a.id < db.next_analysis_id)
    (hlatest : ∀ a ∈ db.resume_analyses, a.created_at < now)
    (hlimit : 0 < limit)
    (hc : decode_payload rec.ai_evaluation = none
      ∨ decode_payload rec.keyword_gaps = none
      ∨ decode_payload rec.job_analysis = none) :
    get_resume_analysis
        (save_resume_analysis db now user_id resume_text job_description e k j rfid).2
        db.next_analysis_id user_id
      = some { id := db.next_analysis_id, user_id := user_id, resume_file_id := rfid,
               resume_text := resume_text, job_description := job_description,
               ai_evaluation := .obj e, keyword_gaps := .obj k,
               job_analysis := .obj j, created_at := now }
    ∧ (get_resume_analyses
          (save_resume_analysis db now user_id resume_text job_description e k j rfid).2
          user_id limit).head?
        = some { id := db.next_analysis_id, user_id := user_id, resume_file_id := rfid,
                 resume_text := resume_text, job_description := job_description,
                 ai_evaluation := .obj e, keyword_gaps := .obj k,
                 job_analysis := .obj j, created_at := now }
    ∧ (get_resume_analyses db user_id limit).length
        = min limit (db.resume_analyses.filter (fun a => a.user_id == user_id)).length
    ∧ (decode_analysis rec).ai_evaluation = emptyObj
    ∧ (decode_analysis rec).keyword_gaps = emptyObj
    ∧ (decode_analysis rec).job_analysis = emptyObj
    ∧ (decode_analysis rec).id = rec.id
    ∧ (decode_analysis rec).resume_text = rec.resume_text := by
  have hdecoded :
      decode_analysis
        { id := db.next_analysis_id, user_id := user_id, resume_file_id := rfid,
          resume_text := resume_text, job_description := job_description,
          ai_evaluation := dumps (.obj e), keyword_gaps := dumps (.obj k),
          job_analysis := dumps (.obj j), created_at := now }
      = { id := db.next_analysis_id, user_id := user_id, resume_file_id := rfid,
          resume_text := resume_text, job_description := job_description,
          ai_evaluation := .obj e, keyword_gaps := .obj k,
          job_analysis := .obj j, created_at := now } := by
    simp [decode_analysis, decode_payload_dumps]
  have hcorrupt : (decode_analysis rec).ai_evaluation = emptyObj
      ∧ (decode_analysis rec).keyword_gaps = emptyObj
      ∧ (decode_analysis rec).job_analysis = emptyObj
      ∧ (decode_analysis rec).id = rec.id
      ∧ (decode_analysis rec).resume_text = rec.resume_text := by
    rcases hc with h | h | h
    · simp [decode_analysis, h]
    · cases hai : decode_payload rec.ai_evaluation <;> simp [decode_analysis, hai, h]
    · cases hai : decode_payload rec.ai_evaluation with
      | none => simp [decode_analysis, hai]
      | some _ =>
        cases hkg : decode_payload rec.keyword_gaps <;>
          simp [decode_analysis, hai, hkg, h]
  refine ⟨?_, ?_, ?_, hcorrupt.1, hcorrupt.2.1, hcorrupt.2.2.1, hcorrupt.2.2.2.1,
    hcorrupt.2.2.2.2⟩
  · have hfind : (db.resume_analyses ++
        [({ id := db.next_analysis_id, user_id := user_id, resume_file_id := rfid,
            resume_text := resume_text, job_description := job_description,
            ai_evaluation := dumps (.obj e), keyword_gaps := dumps (.obj k),
            job_analysis := dumps (.obj j), created_at := now } : ResumeAnalysis)]).find?
          (fun x => x.id == db.next_analysis_id && x.user_id == user_id)
        = some { id := db.next_analysis_id, user_id := user_id, resume_file_id := rfid,
                 resume_text := resume_text, job_description := job_description,
                 ai_evaluation := dumps (.obj e), keyword_gaps := dumps (.obj k),
                 job_analysis := dumps (.obj j), created_at := now } := by
      rw [List.find?_append]
      have h1 : db.resume_analyses.find?
          (fun x => x.id == db.next_analysis_id && x.user_id == user_id) = none := by
        rw [List.find?_eq_none]
        intro x hx
        simp only [Bool.and_eq_true, beq_iff_eq, not_and]
        intro hid _
        exact absurd hid (Nat.ne_of_lt (hfresh x hx))
      rw [h1]
      simp
    simp only [get_resume_analysis, save_resume_analysis]
    rw [hfind]
    simp [hdecoded]
  · have hfilter : (db.resume_analyses ++
        [({ id := db.next_analysis_id, user_id := user_id, resume_file_id := rfid,
            resume_text := resume_text, job_description := job_description,
            ai_evaluation := dumps (.obj e), keyword_gaps := dumps (.obj k),
            job_analysis := dumps (.obj j), created_at := now } : ResumeAnalysis)]).filter
          (fun x => x.user_id == user_id)
        = db.resume_analyses.filter (fun x => x.user_id == user_id) ++
            [({ id := db.next_analysis_id, user_id := user_id, resume_file_id := rfid,
                resume_text := resume_text, job_description := job_description,
                ai_evaluation := dumps (.obj e), keyword_gaps := dumps (.obj k),
                job_analysis := dumps (.obj j), created_at := now } : ResumeAnalysis)] := by
      rw [List.filter_append]
      simp
    have hsort := sortByCreatedDesc_append_newest
      (db.resume_analyses.filter (fun x => x.user_id == user_id))
      { id := db.next_analysis_id, user_id := user_id, resume_file_id := rfid,
        resume_text := resume_text, job_description := job_description,
        ai_evaluation := dumps (.obj e), keyword_gaps := dumps (.obj k),
        job_analysis := dumps (.obj j), created_at := now }
      (fun x hx => hlatest x (List.mem_of_mem_filter hx))
    cases limit with
    | zero => exact absurd hlimit (by omega)
    | succ m =>
      simp only [get_resume_analyses, save_resume_analysis, hfilter, hsort,
        List.take_succ_cons, List.map_cons, List.head?_cons]
      simp [hdecoded]
  · simp [get_resume_analyses, sortByCreatedDesc_length]

/-- Witness for C5: a concrete save into the empty store round-trips through
fetch and list, and a record stored with the unparseable payload `"x"` still
decodes, with empty-dict payload fields. -/
theorem save_resume_analysis_roundtrip_witness :
    get_resume_analysis
        (save_resume_analysis exDbEmpty 1 "u1" "rt" "jd"
          (.cons "score" (.num 87) .nil) .nil .nil none).2
        exDbEmpty.next_analysis_id "u1"
      = some { id := exDbEmpty.next_analysis_id, user_id := "u1", resume_file_id := none,
               resume_text := "rt", job_description := "jd",
               ai_evaluation := .obj (.cons "score" (.num 87) .nil), keyword_gaps := .obj .nil,
               job_analysis := .obj .nil, created_at := 1 }
    ∧ (get_resume_analyses
          (save_resume_analysis exDbEmpty 1 "u1" "rt" "jd"
            (.cons "score" (.num 87) .nil) .nil .nil none).2
          "u1" 1).head?
        = some { id := exDbEmpty.next_analysis_id, user_id := "u1", resume_file_id := none,
                 resume_text := "rt", job_description := "jd",
                 ai_evaluation := .obj (.cons "score" (.num 87) .nil), keyword_gaps := .obj .nil,
                 job_analysis := .obj .nil, created_at := 1 }
    ∧ (get_resume_analyses exDbEmpty "u1" 1).length
        = min 1 (exDbEmpty.resume_analyses.filter (fun a => a.user_id == "u1")).length
    ∧ (decode_analysis ⟨9, "u1", none, "", "", "x", "", "", 0⟩).ai_evaluation = emptyObj
    ∧ (decode_analysis ⟨9, "u1", none, "", "", "x", "", "", 0⟩).keyword_gaps = emptyObj
    ∧ (decode_analysis ⟨9, "u1", none, "", "", "x", "", "", 0⟩).job_analysis = emptyObj
    ∧ (decode_analysis ⟨9, "u1", none, "", "", "x", "", "", 0⟩).id
        = (⟨9, "u1", none, "", "", "x", "", "", 0⟩ : ResumeAnalysis).id
    ∧ (decode_analysis ⟨9, "u1", none, "", "", "x", "", "", 0⟩).resume_text
        = (⟨9, "u1", none, "", "", "x", "", "", 0⟩ : ResumeAnalysis).resume_text :=
  save_resume_analysis_roundtrip exDbEmpty 1 "u1" "rt" "jd"
    (.cons "score" (.num 87) .nil) .nil .nil none 1 ⟨9, "u1", none, "", "", "x", "", "", 0⟩
    (by decide) (by decide) (by decide) (Or.inl (by decide))
